import Mathlib

/-!
Verification development for the GoInfomaniakHackaton2025 browser extension.

The JavaScript sources are shallowly embedded as executable Lean functions:
strings become `String`/`List Char`, the fixed regular expressions become
explicit scanners with the same matching semantics (leftmost match, greedy
character classes, `lastIndex` continuation), asynchronous host interactions
(storage reads, `fetch`, `window.open`) become explicit parameters, and
thrown JavaScript exceptions become `Except`/error results.
-/

namespace Hackathon

/-! ## Pattern parser (`chrome_ext/shared/mail.js`, `chrome_ext/content_script.js`)

Both files scan text with the regex literal `/mail-(\d+)@([a-zA-Z0-9-]+)/g`.
A match is: the literal `mail-`, a maximal nonempty run of decimal digits
(greedy `\d+` must be followed by `@`, and no shorter backtracked run can be,
since the character after a shorter digit run is a digit), the character `@`,
and a maximal nonempty run of `[a-zA-Z0-9-]` (greedy, end of pattern).
Repeated `exec` with the `g` flag resumes searching at the end of the
previous match. -/

/-- Character class `[a-zA-Z0-9-]` of the second capture group. -/
def isFolderChar (c : Char) : Bool :=
  ('a' ≤ c && c ≤ 'z') || ('A' ≤ c && c ≤ 'Z') || c.isDigit || c = '-'

/-- The literal `mail-` that starts the pattern. -/
def litMail : List Char := ['m', 'a', 'i', 'l', '-']

/-- Attempt to match `mail-(\d+)@([a-zA-Z0-9-]+)` at the head of `l`.
On success, returns the two capture groups and the remaining input after
the match (the `lastIndex` continuation point). -/
def matchMailAt (l : List Char) : Option (String × String × List Char) :=
  if l.take litMail.length = litMail then
    let rest := l.drop litMail.length
    let ds := rest.takeWhile Char.isDigit
    let r1 := rest.dropWhile Char.isDigit
    if ds.isEmpty then none
    else if r1.head? = some '@' then
      let r2 := r1.tail
      let fs := r2.takeWhile isFolderChar
      let r3 := r2.dropWhile isFolderChar
      if fs.isEmpty then none
      else some (⟨ds⟩, ⟨fs⟩, r3)
    else none
  else none

theorem matchMailAt_suffix {l : List Char} {t f : String} {rest : List Char}
    (h : matchMailAt l = some (t, f, rest)) : rest <:+ l := by
  unfold matchMailAt at h
  split at h
  · simp only [] at h
    split at h
    · exact absurd h (by simp)
    · split at h
      · split at h
        · exact absurd h (by simp)
        · simp only [Option.some.injEq, Prod.mk.injEq] at h
          obtain ⟨-, -, h3⟩ := h
          subst h3
          exact ((List.dropWhile_suffix _).trans (List.tail_suffix _)).trans
            ((List.dropWhile_suffix _).trans (List.drop_suffix _ _))
      · exact absurd h (by simp)
  · exact absurd h (by simp)

theorem matchMailAt_rest_length {l : List Char} {t f : String} {rest : List Char}
    (h : matchMailAt l = some (t, f, rest)) : rest.length < l.length := by
  have hlen5 : litMail.length ≤ l.length := by
    unfold matchMailAt at h
    split at h
    · rename_i htake
      have := congrArg List.length htake
      simp [List.length_take] at this
      omega
    · exact absurd h (by simp)
  unfold matchMailAt at h
  split at h
  · simp only [] at h
    split at h
    · exact absurd h (by simp)
    · split at h
      · rename_i hds hat
        split at h
        · exact absurd h (by simp)
        · simp only [Option.some.injEq, Prod.mk.injEq] at h
          obtain ⟨-, -, h3⟩ := h
          subst h3
          -- rest = dropWhile of the tail of r1, and r1 is nonempty
          have h2 : ((l.drop litMail.length).dropWhile Char.isDigit).length
              ≤ (l.drop litMail.length).length :=
            (List.dropWhile_suffix _).length_le
          have hr1ne : (l.drop litMail.length).dropWhile Char.isDigit ≠ [] := by
            intro hnil
            rw [hnil] at hat
            simp at hat
          have h3' : (((l.drop litMail.length).dropWhile Char.isDigit).tail.dropWhile
              isFolderChar).length
              ≤ ((l.drop litMail.length).dropWhile Char.isDigit).tail.length :=
            (List.dropWhile_suffix _).length_le
          have h4 : (((l.drop litMail.length).dropWhile Char.isDigit).tail).length
              = ((l.drop litMail.length).dropWhile Char.isDigit).length - 1 := by
            simp [List.length_tail]
          have h5 : 0 < ((l.drop litMail.length).dropWhile Char.isDigit).length :=
            List.length_pos.mpr hr1ne
          have h6 : (l.drop litMail.length).length = l.length - litMail.length := by
            simp [List.length_drop]
          omega
      · exact absurd h (by simp)
  · exact absurd h (by simp)

/-- The `while ((match = mailPattern.exec(content)) !== null)` loop of
`parseMailPattern` in `chrome_ext/shared/mail.js`: collect all matches of
the pattern left to right, resuming after each match. -/
def scanMail : List Char → List (String × String)
  | [] => []
  | c :: cs =>
    match h : matchMailAt (c :: cs) with
    | some (t, f, rest) => (t, f) :: scanMail rest
    | none => scanMail cs
termination_by l => l.length
decreasing_by
  · exact matchMailAt_rest_length h
  · simp

/-- The identical `while` loop of `extractEmailThreadInfo` in
`chrome_ext/content_script.js` (which scans with `CONFIG.mailPattern`, the
same regex literal). Transcribed separately because the source duplicates
the implementation. -/
def scanMailCS : List Char → List (String × String)
  | [] => []
  | c :: cs =>
    match h : matchMailAt (c :: cs) with
    | some (t, f, rest) => (t, f) :: scanMailCS rest
    | none => scanMailCS cs
termination_by l => l.length
decreasing_by
  · exact matchMailAt_rest_length h
  · simp

/-- The `{ threadId, folderId }` object pushed by both parsers per match. -/
structure ThreadRef where
  threadId : String
  folderId : String
deriving DecidableEq, Repr

/-- Return shape of `parseMailPattern` in `chrome_ext/shared/mail.js`. -/
structure ParseMailResult where
  context_message_uid : List String
  folderThreads : List ThreadRef
deriving DecidableEq, Repr

/-- Return shape of `extractEmailThreadInfo` in `chrome_ext/content_script.js`. -/
structure ExtractResult where
  formattedEmails : List String
  folderThreads : List ThreadRef
deriving DecidableEq, Repr

/-- Function `parseMailPattern(content)` from `chrome_ext/shared/mail.js`: per match,
push the label `` `${threadId}@${folderId}` `` and the pair
`{ threadId, folderId }`. -/
def parseMailPattern (content : String) : ParseMailResult :=
  { context_message_uid := (scanMail content.data).map (fun q => q.1 ++ "@" ++ q.2)
    folderThreads := (scanMail content.data).map (fun q => ⟨q.1, q.2⟩) }

/-- Function `extractEmailThreadInfo(content)` from `chrome_ext/content_script.js`:
the duplicated implementation, differing only in the result field name
(`formattedEmails` instead of `context_message_uid`). -/
def extractEmailThreadInfo (content : String) : ExtractResult :=
  { formattedEmails := (scanMailCS content.data).map (fun q => q.1 ++ "@" ++ q.2)
    folderThreads := (scanMailCS content.data).map (fun q => ⟨q.1, q.2⟩) }

/-- Instrumented variant of `scanMail` that also records the start index of
each match inside the scanned text (used to state that matches are reported
in left-to-right order). -/
def scanMailPos : List Char → Nat → List (Nat × String × String)
  | [], _ => []
  | c :: cs, i =>
    match h : matchMailAt (c :: cs) with
    | some (t, f, rest) =>
      (i, t, f) :: scanMailPos rest (i + ((c :: cs).length - rest.length))
    | none => scanMailPos cs (i + 1)
termination_by l _ => l.length
decreasing_by
  · exact matchMailAt_rest_length h
  · simp

/-- Fuel-indexed evaluator for `scanMail`, used only to evaluate the scanner
on concrete inputs inside the kernel (the well-founded recursion of
`scanMail` itself does not reduce definitionally). -/
def scanMailFuel : Nat → List Char → List (String × String)
  | 0, _ => []
  | _ + 1, [] => []
  | fuel + 1, c :: cs =>
    match matchMailAt (c :: cs) with
    | some (t, f, rest) => (t, f) :: scanMailFuel fuel rest
    | none => scanMailFuel fuel cs

/-! ## Mailbox capture listener (background service worker)

`CONFIG.URL_PATTERN` is `/https:\/\/mail\.infomaniak\.com\/api\/mail\/([a-f0-9-]+)\//`
(not global): `details.url.match(...)` returns the leftmost match and
`match[1]` is the capture group. The greedy class `[a-f0-9-]+` must be
followed by `/`; no shorter backtracked run can be, since the character after
a shorter run is again in the class. -/

/-- Character class `[a-f0-9-]` of the mailbox-UUID capture group. -/
def isMailboxIdChar (c : Char) : Bool :=
  ('a' ≤ c && c ≤ 'f') || c.isDigit || c = '-'

/-- The literal part of `CONFIG.URL_PATTERN`. -/
def litMailApiUrl : List Char := "https://mail.infomaniak.com/api/mail/".data

/-- Attempt to match `CONFIG.URL_PATTERN` at the head of `l`, returning the
capture group. -/
def matchUrlAt (l : List Char) : Option String :=
  if l.take litMailApiUrl.length = litMailApiUrl then
    let rest := l.drop litMailApiUrl.length
    let ds := rest.takeWhile isMailboxIdChar
    let r1 := rest.dropWhile isMailboxIdChar
    if ds.isEmpty then none
    else if r1.head? = some '/' then some ⟨ds⟩
    else none
  else none

/-- The call `url.match(CONFIG.URL_PATTERN)` followed by `match[1]`: the capture group
of the leftmost match, or `none` when the URL does not match. -/
def urlMatch : List Char → Option String
  | [] => none
  | c :: cs =>
    match matchUrlAt (c :: cs) with
    | some s => some s
    | none => urlMatch cs

/-- JavaScript `new Set(list)` spread back into an array: first occurrences,
in insertion order. -/
def jsSetDedup : List String → List String
  | [] => []
  | a :: l => a :: jsSetDedup (l.filter (fun b => b != a))
termination_by l => l.length
decreasing_by
  simp only [List.length_cons]
  exact Nat.lt_succ_of_le (List.length_filter_le _ _)

/-- JavaScript `Set.prototype.add` observed through spreading: append if absent. -/
def jsSetAdd (s : List String) (x : String) : List String :=
  if x ∈ s then s else s ++ [x]

/-- Function `captureMailboxId(details)` from the background service worker: if the
request URL matches `CONFIG.URL_PATTERN`, store
`[...new Set(mailboxIds ∪ {mailboxId})]`; otherwise return early, leaving the
registry unchanged. -/
def captureMailboxId (mailboxIds : List String) (url : String) : List String :=
  match urlMatch url.data with
  | none => mailboxIds
  | some mailboxId => jsSetAdd (jsSetDedup mailboxIds) mailboxId

/-! ## Workflow orchestrator (background service worker)

The host `fetch` transport and the persisted storage are passed as explicit
parameters; a thrown JavaScript `Error` becomes an `Except.error` carrying
`error.message`. Each function additionally reports how many network requests
it issued, so that "zero network calls" claims are statable. -/

/-- Outcome of the (mocked) host `fetch` transport. -/
inductive FetchResult where
  | ok (json : String)
  | httpError (status : Nat) (statusText : String)
  | networkError (msg : String)
deriving DecidableEq

/-- Response delivered back over the message channel: either the service JSON
payload or an `{error: string}` object. -/
inductive ApiResponse where
  | success (json : String)
  | error (msg : String)
deriving DecidableEq

/-- Function `getApiToken()`: read the stored `apiToken`; `if (!apiToken) throw new
Error("API Token is not set.")`. -/
def getApiToken (apiToken : Option String) : Except String String :=
  match apiToken with
  | none => .error "API Token is not set."
  | some t => if t = "" then .error "API Token is not set." else .ok t

/-- Function `makeAuthenticatedRequest(url, options)`: resolve the token (its failure
aborts before any fetch), perform the fetch, throw
`` `Request failed: ${response.status} ${response.statusText}` `` on a non-ok
status, otherwise return the parsed JSON body. -/
def makeAuthenticatedRequest (apiToken : Option String)
    (fetchResult : FetchResult) : Except String String × Nat :=
  match getApiToken apiToken with
  | .error e => (.error e, 0)
  | .ok _ =>
    match fetchResult with
    | .networkError m => (.error m, 1)
    | .httpError s st => (.error ("Request failed: " ++ toString s ++ " " ++ st), 1)
    | .ok j => (.ok j, 1)

/-- The endpoint URL built by `getEventSuggestion`. -/
def getEventSuggestionUrl (mailboxId folderId threadId : String) : String :=
  "http://localhost:8000" ++ "/mail/" ++ mailboxId ++ "/folder/" ++ folderId
    ++ "/thread/" ++ threadId ++ "/event_suggestion"

/-- Function `processEventWorkflow(...)`: await the event suggestion; a thrown error is
caught and returned as `{error: error.message}`. -/
def processEventWorkflow (apiToken : Option String)
    (fetchResult : FetchResult) : ApiResponse × Nat :=
  match makeAuthenticatedRequest apiToken fetchResult with
  | (.ok j, n) => (.success j, n)
  | (.error m, n) => (.error m, n)

/-- The `callApi` message payload as seen by the background listener. `none`
models a missing field; for `context` it models any value failing
`Array.isArray`. -/
structure CallApiPayload where
  mailboxId : Option String
  folderId : Option String
  threadId : Option String
  context : Option (List String)
deriving DecidableEq

/-- JavaScript truthiness of an optional string field (`undefined` and `""`
are falsy). -/
def truthyStr : Option String → Bool
  | none => false
  | some s => s != ""

/-- The `chrome.runtime.onMessage` listener branch for `action === "callApi"`:
`if (!mailboxId || !folderId || !threadId || !Array.isArray(context))` respond
`{error: "Invalid payload"}`, else run `processEventWorkflow` and send its
result. -/
def handleCallApi (payload : CallApiPayload) (apiToken : Option String)
    (fetchResult : FetchResult) : ApiResponse × Nat :=
  if !truthyStr payload.mailboxId || !truthyStr payload.folderId
      || !truthyStr payload.threadId || !payload.context.isSome then
    (.error "Invalid payload", 0)
  else
    processEventWorkflow apiToken fetchResult

/-! ## Content-script `callApi` and popup `displayUrlForLastThread` -/

/-- The message payload `callApi` sends to the background context. -/
structure EventRequest where
  mailboxId : String
  folderId : String
  threadId : String
  context : List String
deriving DecidableEq

/-- Function `callApi(content)` from `chrome_ext/content_script.js`, up to the
`runtimeSendMessage` call: parse the content with `extractEmailThreadInfo`,
return early (`none`) when no thread was parsed or no mailbox id is stored,
otherwise build the payload from `mailboxIds[0]` and the last parsed thread,
with the label list as context. -/
def callApi (content : String) (mailboxIds : List String) : Option EventRequest :=
  if (extractEmailThreadInfo content).folderThreads.isEmpty then none
  else if mailboxIds.isEmpty then none
  else some
    { mailboxId := mailboxIds.headD ""
      folderId := ((extractEmailThreadInfo content).folderThreads.getLastD ⟨"", ""⟩).folderId
      threadId := ((extractEmailThreadInfo content).folderThreads.getLastD ⟨"", ""⟩).threadId
      context := (extractEmailThreadInfo content).formattedEmails }

/-- Function `displayUrlForLastThread(parsedData)` from
`Hackathon-2025/chrome_ext/popup.js`: the text written to the `urls` output
element (built from `mailboxIds[0]` and the last parsed thread). -/
def displayUrlForLastThread (folderThreads : List ThreadRef)
    (mailboxIds : List String) : String :=
  if folderThreads.isEmpty then "No thread found."
  else if mailboxIds.isEmpty then "No mailbox ID found."
  else
    "/mail/" ++ mailboxIds.headD "" ++ "/folder/"
      ++ (folderThreads.getLastD ⟨"", ""⟩).folderId ++ "/thread/"
      ++ (folderThreads.getLastD ⟨"", ""⟩).threadId ++ "/event_suggestion"

/-! ## Digest document builder (`jsonToSummaryHTML` in the popup script)

The parsed JSON object is an association list of string keys to values that
are strings or arrays of strings (the shapes the digest schema produces).
`formatDate` calls the host `toLocaleDateString`, whose locale tables live in
the browser; it is passed as the parameter `fmtDate`. The `escape` helper
round-trips text through a detached DOM node (`div.textContent = text;
div.innerHTML`), which serializes a text node by escaping `&`, `<` and `>`. -/

/-- A JSON field value of the digest object. -/
inductive JVal where
  | str (s : String)
  | arr (items : List String)
deriving DecidableEq

/-- JavaScript string coercion of a field value (`String([..])` joins the
elements with commas). -/
def jvalToString : JVal → String
  | .str s => s
  | .arr items => String.intercalate "," items

/-- The skip test `!value || (Array.isArray(value) && value.length === 0)`:
an empty string is falsy, an array is always truthy but is skipped when
empty. -/
def jvalSkip : JVal → Bool
  | .str s => s == ""
  | .arr items => items.isEmpty

/-- Property lookup `data[key]` (with `key in data` as `isSome`). -/
def jsLookup (k : String) : List (String × JVal) → Option JVal
  | [] => none
  | (k2, v) :: rest => if k2 == k then some v else jsLookup k rest

/-- The object `data` with the key `k` removed (used to state that skipped fields render
exactly like absent ones). -/
def removeKey (k : String) (data : List (String × JVal)) : List (String × JVal) :=
  data.filter (fun p => p.1 != k)

/-- Serialization of one text character by the host DOM (`innerHTML` of a
text node): `&`, `<` and `>` are escaped, everything else is kept. -/
def escChar (c : Char) : List Char :=
  if c = '&' then ['&', 'a', 'm', 'p', ';']
  else if c = '<' then ['&', 'l', 't', ';']
  else if c = '>' then ['&', 'g', 't', ';']
  else [c]

def escList : List Char → List Char
  | [] => []
  | c :: cs => escChar c ++ escList cs

/-- The `escape` helper of `jsonToSummaryHTML`. -/
def escapeHtml (s : String) : String := ⟨escList s.data⟩

/-- The `labels` table of `jsonToSummaryHTML`. -/
def fieldLabel (k : String) : String :=
  if k == "title" then "Titre"
  else if k == "summary" then "Résumé"
  else if k == "date" then "Date"
  else if k == "emails" then "Adresses e-mail"
  else if k == "action_items" then "Actions à faire"
  else if k == "topics" then "Sujets"
  else ""

/-- The `order` array of `jsonToSummaryHTML`. -/
def fieldOrder : List String :=
  ["title", "summary", "date", "emails", "action_items", "topics"]

/-- Opening of the container `div` (the first addition to `html`). -/
def summaryContainerOpen : String :=
  "\n        <div class=\"euria-daily-summary\" style=\"\n            font-family: \u0027Segoe UI\u0027, Tahoma, Geneva, Verdana, sans-serif;\n            background: #fff;\n            border-radius: 12px;\n            box-shadow: 0 4px 12px rgba(0,0,0,0.1);\n            overflow: hidden;\n            max-width: 800px;\n            margin: 20px auto;\n        \">\n    "

/-- The `title` branch: a header `div` holding the escaped title. -/
def titleHtml (escapedTitle : String) : String :=
  "<div style=\"background:#2c5282; color:white; padding:20px; font-size:1.6em; font-weight:600;\">"
    ++ escapedTitle ++ "</div>"

/-- Opening of one `li` of an array field. -/
def listItemOpen : String :=
  "<li style=\"\n                background: #f7fafc;\n                border-left: 4px solid #63b3ed;\n                padding: 8px 12px;\n                margin-bottom: 6px;\n                border-radius: 4px;\n                font-size: 0.95em;\n            \">"

/-- The array branch: a `ul` of escaped items. -/
def listHtml (items : List String) : String :=
  "<ul style=\"padding-left: 20px; margin: 8px 0;\">"
    ++ String.join (items.map (fun it => listItemOpen ++ escapeHtml it ++ "</li>"))
    ++ "</ul>"

/-- The default branch: a `p` holding the escaped text. -/
def paragraphHtml (escapedText : String) : String :=
  "<p style=\"margin: 8px 0; color: #4a5568; line-height: 1.6;\">"
    ++ escapedText ++ "</p>"

/-- Opening of one labelled section `div` up to its `h3` label. -/
def sectionOpen : String :=
  "\n            <div style=\"padding: 24px; border-bottom: 1px solid #e2e8f0;\">\n                <h3 style=\"\n                    color: #2d3748;\n                    margin-bottom: 12px;\n                    font-size: 1.1em;\n                    border-bottom: 2px solid #e2e8f0;\n                    display: inline-block;\n                    padding-bottom: 4px;\n                \">"

/-- One labelled section `div` of the summary. -/
def sectionHtml (label content : String) : String :=
  sectionOpen ++ label ++ "</h3>\n                " ++ content
    ++ "\n            </div>\n        "

/-- The loop body of `jsonToSummaryHTML` for one key of `order` (the string
it appends to `html`; `""` when the key is skipped). -/
def fieldHtml (fmtDate : String → String) (data : List (String × JVal))
    (k : String) : String :=
  match jsLookup k data with
  | none => ""
  | some v =>
    if jvalSkip v then ""
    else if k == "title" then titleHtml (escapeHtml (jvalToString v))
    else
      sectionHtml (fieldLabel k)
        (if k == "date" then "<em>" ++ fmtDate (jvalToString v) ++ "</em>"
         else
           match v with
           | .arr items => listHtml items
           | .str s => paragraphHtml (escapeHtml s))

/-- Function `jsonToSummaryHTML(data)` from the popup script: starting from the
container opening, the loop appends `fieldHtml` for each key of `order`, and
finally the closing `</div>`. -/
def jsonToSummaryHTML (fmtDate : String → String)
    (data : List (String × JVal)) : String :=
  (fieldOrder.map (fieldHtml fmtDate data)).foldl (fun acc s => acc ++ s)
    summaryContainerOpen ++ "</div>"

/-! ## Presentation variants (`showDaily` in the popup, `handleApiResponse`
in the content script)

`window.open` is a host call; `winOpened = false` models it returning `null`
(popup blocked). A thrown JavaScript exception escaping the function is
modelled by `Except.error`. -/

/-- Observable outcome of `showDaily`: the final `contentOutput.textContent`
and the document written into the opened window, if any. -/
structure ShowDailyOutcome where
  contentText : String
  writtenDoc : Option String
deriving DecidableEq

/-- The document `showDaily` writes around `jsonToSummaryHTML(json)`. -/
def dailyDocOpen : String :=
  "\n                <!DOCTYPE html>\n                <html lang=\"fr\">\n                <head>\n                    <meta charset=\"UTF-8\" />\n                    <title>Texte reçu</title>\n                    <style>\n                        body \x7b font-family: Arial, sans-serif; padding: 20px; line-height: 1.6; \x7d\n                        pre \x7b background: #f4f4f4; padding: 15px; border-radius: 5px; overflow: auto; \x7d\n                    </style>\n                </head>\n                <body>\n                    <h2>Summary</h2>\n                    "

def dailyDocHtml (fmtDate : String → String)
    (json : List (String × JVal)) : String :=
  dailyDocOpen ++ jsonToSummaryHTML fmtDate json
    ++ " \n                </body>\n                </html>\n            "

/-- Function `showDaily(parsedData)` from the popup script (`unnamed/part_000`). The
host interactions are parameters: the stored `mailboxIds` and `apiToken`, the
outcome of `fetch(...)` followed by `response.json()` (`Except.error m` is a
rejection caught by the surrounding `try`, whose message `m` the catch block
renders), the host date formatter, and whether `window.open` returned a
window. `contentText0` is the status text before the call (the caller set
`"Loading…"`). When the popup is blocked the code only calls `console.warn`
and leaves the status text unchanged. -/
def showDaily (folderThreads : List ThreadRef) (mailboxIds : List String)
    (apiToken : Option String) (fetchJson : Except String (List (String × JVal)))
    (fmtDate : String → String) (winOpened : Bool)
    (contentText0 : String) : ShowDailyOutcome :=
  if folderThreads.isEmpty then
    { contentText := "No thread found.", writtenDoc := none }
  else if mailboxIds.isEmpty then
    { contentText := "No mailbox ID found.", writtenDoc := none }
  else if !truthyStr apiToken then
    { contentText := "Error: API Token is not set.", writtenDoc := none }
  else
    match fetchJson with
    | .error m => { contentText := "Error: " ++ m, writtenDoc := none }
    | .ok json =>
      if winOpened then
        { contentText := "Emails successfully processed"
          writtenDoc := some (dailyDocHtml fmtDate json) }
      else
        { contentText := contentText0, writtenDoc := none }

/-- The `response` object consumed by `handleApiResponse`. -/
structure AiResponse where
  description : Option String
  analysis : Option String
deriving DecidableEq

/-- JavaScript `a || b` on an optional string (falsy fallback). -/
def jsOrElse (v : Option String) (dflt : String) : String :=
  match v with
  | some s => if s == "" then dflt else s
  | none => dflt

/-- The `htmlContent` document built by `handleApiResponse`. -/
def handleApiResponseDoc (response : AiResponse) : String :=
  "\n        <html>\n            <head>\n                <title>Disclaimer</title>\n                <style>\n                    body \x7b font-family: Arial, sans-serif; margin: 2em; \x7d\n                    .event-box \x7b border: 1px solid #ccc; padding: 1em; border-radius: 8px; \x7d\n                    h2 \x7b margin-top: 0; \x7d\n                </style>\n            </head>\n            <body>\n                <div class=\"event-box\">\n                    <h2>Notre retour</h2>\n                    <pre>"
    ++ jsOrElse response.description
        (jsOrElse response.analysis "Aucune réponse de l\u0027IA.")
    ++ "</pre>\n                </div>\n            </body>\n        </html>\n    "

/-- Function `handleApiResponse(response)` from `chrome_ext/content_script.js`: builds
`htmlContent`, then `const win = window.open("", "_blank");
win.document.write(htmlContent); win.document.close();` with no null check —
when `window.open` returns `null` the property access `win.document` throws a
`TypeError`, modelled by `Except.error`. -/
def handleApiResponse (response : AiResponse) (winOpened : Bool) :
    Except String (Option String) :=
  if winOpened then .ok (some (handleApiResponseDoc response))
  else .error "TypeError: win is null"

theorem scanMail_rw_nil : scanMail [] = [] := by rw [scanMail]

theorem scanMail_rw_some {c : Char} {cs : List Char} {t f : String}
    {rest : List Char} (h : matchMailAt (c :: cs) = some (t, f, rest)) :
    scanMail (c :: cs) = (t, f) :: scanMail rest := by
  rw [scanMail]
  split <;> simp_all

theorem scanMail_rw_none {c : Char} {cs : List Char}
    (h : matchMailAt (c :: cs) = none) : scanMail (c :: cs) = scanMail cs := by
  rw [scanMail]
  split <;> simp_all

theorem scanMail_eq_fuel : ∀ (n : Nat) (l : List Char), l.length ≤ n →
    scanMail l = scanMailFuel n l := by
  intro n
  induction n with
  | zero =>
    intro l hl
    have : l = [] := List.eq_nil_of_length_eq_zero (Nat.le_zero.mp hl)
    subst this
    rw [scanMail_rw_nil, scanMailFuel]
  | succ m ih =>
    intro l hl
    match l with
    | [] => rw [scanMail_rw_nil, scanMailFuel]
    | c :: cs =>
      rw [scanMailFuel]
      cases h : matchMailAt (c :: cs) with
      | some v =>
        obtain ⟨t, f, rest⟩ := v
        rw [scanMail_rw_some h]
        have hr := matchMailAt_rest_length h
        simp only [List.length_cons] at hl hr
        rw [ih rest (by omega)]
      | none =>
        rw [scanMail_rw_none h]
        simp only [List.length_cons] at hl
        rw [ih cs (by omega)]

theorem scanMailPos_rw_nil (i : Nat) : scanMailPos [] i = [] := by
  rw [scanMailPos]

theorem scanMailPos_rw_some {c : Char} {cs : List Char} {t f : String}
    {rest : List Char} (i : Nat) (h : matchMailAt (c :: cs) = some (t, f, rest)) :
    scanMailPos (c :: cs) i
      = (i, t, f) :: scanMailPos rest (i + ((c :: cs).length - rest.length)) := by
  rw [scanMailPos]
  split <;> simp_all

theorem scanMailPos_rw_none {c : Char} {cs : List Char} (i : Nat)
    (h : matchMailAt (c :: cs) = none) :
    scanMailPos (c :: cs) i = scanMailPos cs (i + 1) := by
  rw [scanMailPos]
  split <;> simp_all

theorem scanMailPos_snd_eq : ∀ (l : List Char) (i : Nat),
    (scanMailPos l i).map (fun p => (p.2.1, p.2.2)) = scanMail l := by
  intro l i
  induction l, i using scanMailPos.induct with
  | case1 i => rw [scanMailPos_rw_nil, scanMail_rw_nil]; rfl
  | case2 c cs i t f rest h ih =>
    rw [scanMailPos_rw_some i h, scanMail_rw_some h, List.map_cons, ih]
  | case3 c cs i h ih =>
    rw [scanMailPos_rw_none i h, scanMail_rw_none h, ih]

theorem scanMailPos_le : ∀ (l : List Char) (i : Nat),
    ∀ p ∈ scanMailPos l i, i ≤ p.1 := by
  intro l i
  induction l, i using scanMailPos.induct with
  | case1 i =>
    intro p hp
    rw [scanMailPos_rw_nil] at hp
    simp at hp
  | case2 c cs i t f rest h ih =>
    intro p hp
    rw [scanMailPos_rw_some i h] at hp
    rcases List.mem_cons.mp hp with hp | hp
    · subst hp
      exact Nat.le_refl i
    · have := ih p hp
      omega
  | case3 c cs i h ih =>
    intro p hp
    rw [scanMailPos_rw_none i h] at hp
    have := ih p hp
    omega

theorem scanMailPos_pairwise : ∀ (l : List Char) (i : Nat),
    List.Pairwise (· < ·) ((scanMailPos l i).map (fun p => p.1)) := by
  intro l i
  induction l, i using scanMailPos.induct with
  | case1 i =>
    rw [scanMailPos_rw_nil]
    simp
  | case2 c cs i t f rest h ih =>
    rw [scanMailPos_rw_some i h, List.map_cons]
    refine List.pairwise_cons.mpr ⟨?_, ih⟩
    intro j hj
    simp only [List.mem_map] at hj
    obtain ⟨p, hp, rfl⟩ := hj
    have h1 := scanMailPos_le rest _ p hp
    have h2 := matchMailAt_rest_length h
    simp only [List.length_cons] at h1 h2
    omega
  | case3 c cs i h ih =>
    rw [scanMailPos_rw_none i h]
    exact ih

theorem scanMailPos_matches : ∀ (l : List Char) (i : Nat),
    ∀ p ∈ scanMailPos l i,
      ∃ rest, matchMailAt (l.drop (p.1 - i)) = some (p.2.1, p.2.2, rest) := by
  intro l i
  induction l, i using scanMailPos.induct with
  | case1 i =>
    intro p hp
    rw [scanMailPos_rw_nil] at hp
    simp at hp
  | case2 c cs i t f rest h ih =>
    intro p hp
    rw [scanMailPos_rw_some i h] at hp
    rcases List.mem_cons.mp hp with hp | hp
    · subst hp
      refine ⟨rest, ?_⟩
      simpa using h
    · obtain ⟨r', hr'⟩ := ih p hp
      have hple := scanMailPos_le rest _ p hp
      have hrest : rest = (c :: cs).drop ((c :: cs).length - rest.length) :=
        List.suffix_iff_eq_drop.mp (matchMailAt_suffix h)
      refine ⟨r', ?_⟩
      have key : ∀ x : Nat, rest.drop x
          = (c :: cs).drop ((c :: cs).length - rest.length + x) := by
        intro x
        conv_lhs => rw [hrest]
        rw [List.drop_drop]
      have key2 : rest.drop (p.1 - (i + ((c :: cs).length - rest.length)))
          = (c :: cs).drop (p.1 - i) := by
        rw [key]
        congr 1
        have h2 := matchMailAt_rest_length h
        omega
      rw [← key2]
      exact hr'
  | case3 c cs i h ih =>
    intro p hp
    rw [scanMailPos_rw_none i h] at hp
    obtain ⟨r', hr'⟩ := ih p hp
    have hple := scanMailPos_le cs _ p hp
    refine ⟨r', ?_⟩
    have key : cs.drop (p.1 - (i + 1)) = (c :: cs).drop (p.1 - i) := by
      conv_lhs => rw [show (cs : List Char) = (c :: cs).drop 1 from rfl]
      rw [List.drop_drop]
      congr 1
      omega
    rw [← key]
    exact hr'

theorem scanMail_eq_nil_of_no_match : ∀ l : List Char,
    (∀ i, matchMailAt (l.drop i) = none) → scanMail l = [] := by
  intro l
  induction l with
  | nil => intro _; rw [scanMail_rw_nil]
  | cons c cs ih =>
    intro h
    rw [scanMail_rw_none (by simpa using h 0)]
    exact ih (fun i => by simpa using h (i + 1))

theorem matchMailAt_shape {l : List Char} {t f : String} {rest : List Char}
    (h : matchMailAt l = some (t, f, rest)) :
    (t.data ≠ [] ∧ ∀ c ∈ t.data, c.isDigit = true) ∧
    (f.data ≠ [] ∧ ∀ c ∈ f.data, isFolderChar c = true) := by
  unfold matchMailAt at h
  split at h
  · simp only [] at h
    split at h
    · exact absurd h (by simp)
    · split at h
      · split at h
        · exact absurd h (by simp)
        · rename_i hds hat hfs
          simp only [Option.some.injEq, Prod.mk.injEq] at h
          obtain ⟨h1, h2, -⟩ := h
          subst h1; subst h2
          refine ⟨⟨by simpa [List.isEmpty_iff] using hds, ?_⟩,
            ⟨by simpa [List.isEmpty_iff] using hfs, ?_⟩⟩
          · intro c hc
            exact List.mem_takeWhile_imp hc
          · intro c hc
            exact List.mem_takeWhile_imp hc
      · exact absurd h (by simp)
  · exact absurd h (by simp)

theorem scanMail_shape : ∀ (l : List Char), ∀ q ∈ scanMail l,
    (q.1.data ≠ [] ∧ ∀ c ∈ q.1.data, c.isDigit = true) ∧
    (q.2.data ≠ [] ∧ ∀ c ∈ q.2.data, isFolderChar c = true) := by
  intro l
  induction l using scanMail.induct with
  | case1 =>
    intro q hq
    rw [scanMail_rw_nil] at hq
    simp at hq
  | case2 c cs t f rest h ih =>
    intro q hq
    rw [scanMail_rw_some h] at hq
    rcases List.mem_cons.mp hq with hq | hq
    · subst hq
      exact matchMailAt_shape h
    · exact ih q hq
  | case3 c cs h ih =>
    intro q hq
    rw [scanMail_rw_none h] at hq
    exact ih q hq

theorem scanMailCS_eq_scanMail : ∀ l : List Char, scanMailCS l = scanMail l := by
  intro l
  induction l using scanMailCS.induct with
  | case1 => rw [scanMailCS, scanMail]
  | case2 c cs t f rest h ih =>
    rw [scanMailCS, scanMail]
    split <;> simp_all
  | case3 c cs h ih =>
    rw [scanMailCS, scanMail]
    split <;> simp_all

/-! ## Claim theorems -/

/-- C1: for every input string, `parseMailPattern` returns as many labels as
threads, each label being `<threadId>@<folderId>` of the corresponding
thread; when no position of the text matches the pattern it returns the empty
result (not an error); parsing the same text twice yields the same output
(the embedding is a pure function); and the threads appear in the order of
their left-to-right matches: the instrumented scanner lists them at strictly
increasing start positions, each of which carries a genuine match of the
pattern producing exactly that thread. -/
theorem parseMailPattern_correct (content : String) :
    (parseMailPattern content).context_message_uid.length
      = (parseMailPattern content).folderThreads.length
    ∧ (parseMailPattern content).context_message_uid
      = (parseMailPattern content).folderThreads.map
          (fun t => t.threadId ++ "@" ++ t.folderId)
    ∧ ((∀ i, matchMailAt (content.data.drop i) = none) →
        parseMailPattern content = ⟨[], []⟩)
    ∧ parseMailPattern content = parseMailPattern content
    ∧ (parseMailPattern content).folderThreads
      = (scanMailPos content.data 0).map (fun p => ⟨p.2.1, p.2.2⟩)
    ∧ List.Pairwise (· < ·) ((scanMailPos content.data 0).map (fun p => p.1))
    ∧ ∀ p ∈ scanMailPos content.data 0,
        ∃ rest, matchMailAt (content.data.drop p.1) = some (p.2.1, p.2.2, rest) := by
  refine ⟨?_, ?_, ?_, rfl, ?_, scanMailPos_pairwise _ _, ?_⟩
  · simp [parseMailPattern]
  · simp [parseMailPattern, List.map_map]
  · intro h
    have h0 := scanMail_eq_nil_of_no_match content.data h
    simp [parseMailPattern, h0]
  · show (scanMail content.data).map (fun q => ThreadRef.mk q.1 q.2) = _
    rw [← scanMailPos_snd_eq content.data 0, List.map_map]
    rfl
  · intro p hp
    simpa using scanMailPos_matches content.data 0 p hp

/-- Witness for C1 at the concrete input `"no markers here"` (no position
matches, so the parser returns the empty result). -/
theorem parseMailPattern_correct_witness :
    parseMailPattern "no markers here" = ⟨[], []⟩ := by
  refine (parseMailPattern_correct "no markers here").2.2.1 ?_
  intro i
  rcases Nat.lt_or_ge i 16 with hi | hi
  · interval_cases i <;> decide
  · rw [List.drop_eq_nil_of_le]
    · decide
    · have h15 : ("no markers here".data).length = 15 := by decide
      omega

/-- C7: the two duplicated parser implementations are semantically identical:
on every input they produce the same ordered label list and the same ordered
thread list (only the result field names differ). -/
theorem parsers_equivalent (content : String) :
    (extractEmailThreadInfo content).formattedEmails
      = (parseMailPattern content).context_message_uid
    ∧ (extractEmailThreadInfo content).folderThreads
      = (parseMailPattern content).folderThreads := by
  unfold extractEmailThreadInfo parseMailPattern
  rw [scanMailCS_eq_scanMail]
  exact ⟨rfl, rfl⟩

/-- C10: every thread reference either parser produces has a nonempty
`threadId` of decimal digits only, and a nonempty `folderId` of ASCII
letters, digits and hyphens only. -/
theorem threadRef_shape_invariant (content : String) (tr : ThreadRef)
    (h : tr ∈ (parseMailPattern content).folderThreads
        ∨ tr ∈ (extractEmailThreadInfo content).folderThreads) :
    tr.threadId.data ≠ [] ∧ (∀ c ∈ tr.threadId.data, c.isDigit = true)
    ∧ tr.folderId.data ≠ [] ∧ (∀ c ∈ tr.folderId.data, isFolderChar c = true) := by
  have hmem : tr ∈ (scanMail content.data).map (fun q => ThreadRef.mk q.1 q.2) := by
    rcases h with h | h
    · simpa [parseMailPattern] using h
    · simpa [extractEmailThreadInfo, scanMailCS_eq_scanMail] using h
  simp only [List.mem_map] at hmem
  obtain ⟨q, hq, rfl⟩ := hmem
  obtain ⟨⟨h1, h2⟩, h3, h4⟩ := scanMail_shape content.data q hq
  exact ⟨h1, h2, h3, h4⟩

/-- Witness for C10 at the concrete input `"mail-42@folderA"`. -/
theorem threadRef_shape_invariant_witness :
    "42".data ≠ [] ∧ (∀ c ∈ "42".data, c.isDigit = true)
    ∧ "folderA".data ≠ [] ∧ (∀ c ∈ "folderA".data, isFolderChar c = true) := by
  have hs : scanMail "mail-42@folderA".data = [("42", "folderA")] := by
    rw [scanMail_eq_fuel 20 _ (by decide)]
    decide
  have hmem : (⟨"42", "folderA"⟩ : ThreadRef)
      ∈ (parseMailPattern "mail-42@folderA").folderThreads := by
    simp [parseMailPattern, hs]
  exact threadRef_shape_invariant "mail-42@folderA" ⟨"42", "folderA"⟩ (Or.inl hmem)

/-- C3: a `callApi` message whose payload is missing (or has an empty)
`mailboxId`, `folderId` or `threadId`, or whose `context` is not an array, is
answered immediately with `{error: "Invalid payload"}`, and zero network
requests are performed. -/
theorem invalid_payload_rejected (payload : CallApiPayload)
    (apiToken : Option String) (fetchResult : FetchResult)
    (h : truthyStr payload.mailboxId = false ∨ truthyStr payload.folderId = false
        ∨ truthyStr payload.threadId = false ∨ payload.context = none) :
    handleCallApi payload apiToken fetchResult = (.error "Invalid payload", 0) := by
  unfold handleCallApi
  rcases h with h | h | h | h <;> simp [h]

/-- Witness for C3: a payload missing `threadId` is rejected with zero
network requests. -/
theorem invalid_payload_rejected_witness :
    handleCallApi ⟨some "mb", some "fold", none, some []⟩ (some "token")
        (.ok "json") = (.error "Invalid payload", 0) :=
  invalid_payload_rejected _ _ _ (Or.inr (Or.inr (Or.inl (by decide))))

/-- C4: a valid payload with no stored credential is answered with the error
message exactly `"API Token is not set."`, and zero network requests are
performed. -/
theorem missing_token_rejected (payload : CallApiPayload)
    (fetchResult : FetchResult)
    (hm : truthyStr payload.mailboxId = true)
    (hf : truthyStr payload.folderId = true)
    (ht : truthyStr payload.threadId = true)
    (hc : payload.context.isSome = true) :
    handleCallApi payload none fetchResult
      = (.error "API Token is not set.", 0) := by
  unfold handleCallApi
  simp [hm, hf, ht, hc, processEventWorkflow, makeAuthenticatedRequest,
    getApiToken]

/-- Witness for C4 at a concrete valid payload. -/
theorem missing_token_rejected_witness :
    handleCallApi ⟨some "mb", some "fold", some "th", some ["42@fold"]⟩ none
        (.ok "json") = (.error "API Token is not set.", 0) :=
  missing_token_rejected _ _ (by decide) (by decide) (by decide) (by decide)

/-- C2: with a valid payload and a stored credential, a non-success HTTP
status `s` makes the orchestrator return exactly
`{error: "Request failed: s statusText"}` with a single network request; a
thrown/rejected network failure is caught and returned as the same single
error shape (never rethrown, since the embedding returns a value); and each
request yields exactly one outcome — a success payload or one error object,
never both and never none. -/
theorem orchestrator_error_handling (payload : CallApiPayload) (token : String)
    (hm : truthyStr payload.mailboxId = true)
    (hf : truthyStr payload.folderId = true)
    (ht : truthyStr payload.threadId = true)
    (hc : payload.context.isSome = true)
    (htok : token ≠ "") :
    (∀ s st, handleCallApi payload (some token) (.httpError s st)
        = (.error ("Request failed: " ++ toString s ++ " " ++ st), 1))
    ∧ (∀ m, handleCallApi payload (some token) (.networkError m)
        = (.error m, 1))
    ∧ ∀ fr : FetchResult,
        ((∃ j, (handleCallApi payload (some token) fr).1 = .success j)
          ∨ (∃ m, (handleCallApi payload (some token) fr).1 = .error m))
        ∧ ¬((∃ j, (handleCallApi payload (some token) fr).1 = .success j)
          ∧ (∃ m, (handleCallApi payload (some token) fr).1 = .error m)) := by
  refine ⟨?_, ?_, ?_⟩
  · intro s st
    unfold handleCallApi
    simp [hm, hf, ht, hc, processEventWorkflow, makeAuthenticatedRequest,
      getApiToken, htok]
  · intro m
    unfold handleCallApi
    simp [hm, hf, ht, hc, processEventWorkflow, makeAuthenticatedRequest,
      getApiToken, htok]
  · intro fr
    unfold handleCallApi
    cases fr <;>
      simp [hm, hf, ht, hc, processEventWorkflow, makeAuthenticatedRequest,
        getApiToken, htok]

/-- Witness for C2: a mocked HTTP 500 becomes exactly
`{error: "Request failed: 500 Internal Server Error"}`. -/
theorem orchestrator_error_handling_witness :
    handleCallApi ⟨some "mb", some "fold", some "th", some ["42@fold"]⟩
        (some "token") (.httpError 500 "Internal Server Error")
      = (.error "Request failed: 500 Internal Server Error", 1) := by
  have h := (orchestrator_error_handling
      ⟨some "mb", some "fold", some "th", some ["42@fold"]⟩ "token"
      (by decide) (by decide) (by decide) (by decide) (by decide)).1
      500 "Internal Server Error"
  have heq : "Request failed: " ++ toString (500 : Nat) ++ " "
      ++ "Internal Server Error" = "Request failed: 500 Internal Server Error" := by
    decide
  rw [heq] at h
  exact h

theorem jsSetDedup_rw_nil : jsSetDedup [] = [] := by rw [jsSetDedup]

theorem jsSetDedup_rw_cons (a : String) (l : List String) :
    jsSetDedup (a :: l) = a :: jsSetDedup (l.filter (fun b => b != a)) := by
  rw [jsSetDedup]

theorem jsSetDedup_mem : ∀ (l : List String) (x : String),
    x ∈ jsSetDedup l ↔ x ∈ l := by
  intro l
  induction l using jsSetDedup.induct with
  | case1 =>
    intro x
    rw [jsSetDedup_rw_nil]
  | case2 a l ih =>
    intro x
    rw [jsSetDedup_rw_cons]
    by_cases hxa : x = a
    · subst hxa
      simp
    · simp only [List.mem_cons, ih x, List.mem_filter, bne_iff_ne, ne_eq]
      constructor
      · rintro (h | ⟨h, -⟩)
        · exact Or.inl h
        · exact Or.inr h
      · rintro (h | h)
        · exact Or.inl h
        · exact Or.inr ⟨h, by simpa using hxa⟩

theorem jsSetDedup_nodup : ∀ l : List String, (jsSetDedup l).Nodup := by
  intro l
  induction l using jsSetDedup.induct with
  | case1 =>
    rw [jsSetDedup_rw_nil]
    exact List.nodup_nil
  | case2 a l ih =>
    rw [jsSetDedup_rw_cons]
    refine List.nodup_cons.mpr ⟨?_, ih⟩
    intro hmem
    rw [jsSetDedup_mem] at hmem
    simp at hmem

theorem jsSetDedup_eq_self : ∀ l : List String, l.Nodup → jsSetDedup l = l := by
  intro l
  induction l using jsSetDedup.induct with
  | case1 =>
    intro _
    rw [jsSetDedup_rw_nil]
  | case2 a l ih =>
    intro h
    obtain ⟨ha, hl⟩ := List.nodup_cons.mp h
    have hfilter : l.filter (fun b => b != a) = l := by
      apply List.filter_eq_self.mpr
      intro b hb
      simp only [bne_iff_ne, ne_eq, decide_eq_true_eq]
      intro hba
      exact ha (hba ▸ hb)
    rw [hfilter] at ih
    rw [jsSetDedup_rw_cons, hfilter, ih hl]

theorem jsSetAdd_of_mem {s : List String} {x : String} (h : x ∈ s) :
    jsSetAdd s x = s := by
  unfold jsSetAdd
  rw [if_pos h]

theorem jsSetAdd_of_not_mem {s : List String} {x : String} (h : x ∉ s) :
    jsSetAdd s x = s ++ [x] := by
  unfold jsSetAdd
  rw [if_neg h]

theorem mem_jsSetAdd_self (s : List String) (x : String) : x ∈ jsSetAdd s x := by
  by_cases h : x ∈ s
  · rw [jsSetAdd_of_mem h]
    exact h
  · rw [jsSetAdd_of_not_mem h]
    simp

theorem mem_jsSetAdd_of_mem {s : List String} {x y : String} (h : y ∈ s) :
    y ∈ jsSetAdd s x := by
  by_cases hx : x ∈ s
  · rw [jsSetAdd_of_mem hx]
    exact h
  · rw [jsSetAdd_of_not_mem hx]
    simp [h]

theorem jsSetAdd_nodup {s : List String} (x : String) (h : s.Nodup) :
    (jsSetAdd s x).Nodup := by
  by_cases hx : x ∈ s
  · rw [jsSetAdd_of_mem hx]
    exact h
  · rw [jsSetAdd_of_not_mem hx]
    rw [List.nodup_append]
    refine ⟨h, List.nodup_singleton _, ?_⟩
    intro y hy hy2
    simp only [List.mem_singleton] at hy2
    subst hy2
    exact hx hy

theorem captureMailboxId_rw_none {registry : List String} {url : String}
    (h : urlMatch url.data = none) : captureMailboxId registry url = registry := by
  unfold captureMailboxId
  rw [h]

theorem captureMailboxId_rw_some {registry : List String} {url mid : String}
    (h : urlMatch url.data = some mid) :
    captureMailboxId registry url = jsSetAdd (jsSetDedup registry) mid := by
  unfold captureMailboxId
  rw [h]

/-- C5: the mailbox capture is idempotent and monotone: it never removes a
registry entry; capturing the same UUID twice is the same as capturing it
once; a newly observed distinct UUID is appended after all existing entries
(preserving their order); and after any successful capture the registry holds
exactly one occurrence of the captured UUID. -/
theorem captureMailboxId_set_semantics (registry : List String) (url : String) :
    (∀ x ∈ registry, x ∈ captureMailboxId registry url)
    ∧ captureMailboxId (captureMailboxId registry url) url
        = captureMailboxId registry url
    ∧ (∀ mid, urlMatch url.data = some mid → registry.Nodup →
        mid ∉ registry → captureMailboxId registry url = registry ++ [mid])
    ∧ (∀ mid, urlMatch url.data = some mid →
        (captureMailboxId registry url).count mid = 1) := by
  refine ⟨?_, ?_, ?_, ?_⟩
  · intro x hx
    cases hurl : urlMatch url.data with
    | none =>
      rw [captureMailboxId_rw_none hurl]
      exact hx
    | some mid =>
      rw [captureMailboxId_rw_some hurl]
      exact mem_jsSetAdd_of_mem ((jsSetDedup_mem registry x).mpr hx)
  · cases hurl : urlMatch url.data with
    | none =>
      rw [captureMailboxId_rw_none hurl, captureMailboxId_rw_none hurl]
    | some mid =>
      rw [captureMailboxId_rw_some hurl, captureMailboxId_rw_some hurl]
      rw [jsSetDedup_eq_self _ (jsSetAdd_nodup mid (jsSetDedup_nodup registry))]
      exact jsSetAdd_of_mem (mem_jsSetAdd_self _ _)
  · intro mid hurl hnodup hnotmem
    rw [captureMailboxId_rw_some hurl, jsSetDedup_eq_self _ hnodup]
    exact jsSetAdd_of_not_mem hnotmem
  · intro mid hurl
    rw [captureMailboxId_rw_some hurl]
    by_cases hmem : mid ∈ jsSetDedup registry
    · rw [jsSetAdd_of_mem hmem]
      exact List.count_eq_one_of_mem (jsSetDedup_nodup registry) hmem
    · rw [jsSetAdd_of_not_mem hmem, List.count_append,
        List.count_eq_zero_of_not_mem hmem]
      simp

/-- Witness for C5: observing
`https://mail.infomaniak.com/api/mail/abc-123/inbox` on an empty registry
appends `"abc-123"`. -/
theorem captureMailboxId_set_semantics_witness :
    captureMailboxId [] "https://mail.infomaniak.com/api/mail/abc-123/inbox"
      = [] ++ ["abc-123"] := by
  refine (captureMailboxId_set_semantics []
      "https://mail.infomaniak.com/api/mail/abc-123/inbox").2.2.1 "abc-123" ?_ ?_ ?_
  · decide
  · exact List.nodup_nil
  · simp

/-- C6: when parsing yields at least one thread and the registry is
non-empty, the outbound request payload is built from the **last** parsed
thread (its `folderId` and `threadId`) together with the mailbox identifier
at registry index 0, the earlier threads contributing only to the context
label list; and the URL preview of the popup is built from the same pair. -/
theorem last_thread_first_mailbox (content : String) (mailboxIds : List String)
    (lt : ThreadRef) (m : String)
    (hlast : (extractEmailThreadInfo content).folderThreads.getLast? = some lt)
    (hhead : mailboxIds.head? = some m) :
    callApi content mailboxIds
      = some { mailboxId := m, folderId := lt.folderId, threadId := lt.threadId,
               context := (extractEmailThreadInfo content).formattedEmails }
    ∧ displayUrlForLastThread (parseMailPattern content).folderThreads mailboxIds
      = "/mail/" ++ m ++ "/folder/" ++ lt.folderId ++ "/thread/" ++ lt.threadId
        ++ "/event_suggestion" := by
  have hne : (extractEmailThreadInfo content).folderThreads ≠ [] := by
    intro h0
    rw [h0] at hlast
    simp at hlast
  have hmne : mailboxIds ≠ [] := by
    intro h0
    rw [h0] at hhead
    simp at hhead
  have hlastD : (extractEmailThreadInfo content).folderThreads.getLastD ⟨"", ""⟩
      = lt := by
    rw [List.getLastD_eq_getLast?, hlast]
    rfl
  have hheadD : mailboxIds.headD "" = m := by
    rw [List.headD_eq_head?, hhead]
    rfl
  have hpe : (parseMailPattern content).folderThreads
      = (extractEmailThreadInfo content).folderThreads := by
    unfold parseMailPattern extractEmailThreadInfo
    rw [scanMailCS_eq_scanMail]
  constructor
  · unfold callApi
    rw [if_neg (by simp [hne]), if_neg (by simp [hmne]), hlastD, hheadD]
  · unfold displayUrlForLastThread
    rw [hpe, if_neg (by simp [hne]), if_neg (by simp [hmne]), hlastD, hheadD]

/-- Witness for C6 at `"mail-42@fA mail-99@fB"` with registry
`["mb0", "mb1"]`: the payload routes to thread `99` in folder `fB` of mailbox
`mb0`. -/
theorem last_thread_first_mailbox_witness :
    callApi "mail-42@fA mail-99@fB" ["mb0", "mb1"]
      = some { mailboxId := "mb0", folderId := "fB", threadId := "99",
               context := ["42@fA", "99@fB"] } := by
  have hs : scanMail "mail-42@fA mail-99@fB".data = [("42", "fA"), ("99", "fB")] := by
    rw [scanMail_eq_fuel 30 _ (by decide)]
    decide
  have hextract : extractEmailThreadInfo "mail-42@fA mail-99@fB"
      = { formattedEmails := ["42@fA", "99@fB"]
          folderThreads := [⟨"42", "fA"⟩, ⟨"99", "fB"⟩] } := by
    unfold extractEmailThreadInfo
    rw [scanMailCS_eq_scanMail, hs]
    rfl
  have hlast : (extractEmailThreadInfo "mail-42@fA mail-99@fB").folderThreads.getLast?
      = some ⟨"99", "fB"⟩ := by
    rw [hextract]
    rfl
  have h := (last_thread_first_mailbox "mail-42@fA mail-99@fB" ["mb0", "mb1"]
      ⟨"99", "fB"⟩ "mb0" hlast rfl).1
  rw [h, hextract]

/-- C9: when the popup blocker of the host makes `window.open` return `null`, the
popup variant `showDaily` does not throw — it only logs and leaves the
status text of the triggering view unchanged — but the content-script variant
`handleApiResponse` dereferences the null window (`win.document`) and throws
a `TypeError`, so the clause "for both presentation variants" of the claim fails on the
code. -/
theorem popup_blocked_behavior :
    (∀ (folderThreads : List ThreadRef) (mailboxIds : List String)
        (apiToken : Option String) (json : List (String × JVal))
        (fmtDate : String → String) (contentText0 : String),
        folderThreads.isEmpty = false → mailboxIds.isEmpty = false →
        truthyStr apiToken = true →
        showDaily folderThreads mailboxIds apiToken (.ok json) fmtDate false
            contentText0
          = { contentText := contentText0, writtenDoc := none })
    ∧ ∀ response : AiResponse,
        handleApiResponse response false = .error "TypeError: win is null" := by
  constructor
  · intro ft mi tok json fmt c0 h1 h2 h3
    unfold showDaily
    rw [if_neg (by simp [h1]), if_neg (by simp [h2]), if_neg (by simp [h3])]
    rfl
  · intro r
    rfl

/-- Witness for C9: concrete popup-blocked run of both variants. -/
theorem popup_blocked_behavior_witness :
    showDaily [⟨"99", "fB"⟩] ["mb0"] (some "token") (.ok []) (fun s => s) false
        "Loading…"
      = { contentText := "Loading…", writtenDoc := none }
    ∧ handleApiResponse ⟨none, none⟩ false = .error "TypeError: win is null" :=
  ⟨popup_blocked_behavior.1 [⟨"99", "fB"⟩] ["mb0"] (some "token") []
      (fun s => s) "Loading…" (by decide) (by decide) (by decide),
    popup_blocked_behavior.2 ⟨none, none⟩⟩

theorem fieldHtml_congr (fmtDate : String → String)
    {d1 d2 : List (String × JVal)} (k : String)
    (h : jsLookup k d1 = jsLookup k d2) :
    fieldHtml fmtDate d1 k = fieldHtml fmtDate d2 k := by
  unfold fieldHtml
  rw [h]

theorem removeKey_cons (k kp : String) (v : JVal) (rest : List (String × JVal)) :
    removeKey k ((kp, v) :: rest)
      = if kp = k then removeKey k rest else (kp, v) :: removeKey k rest := by
  by_cases h : kp = k
  · simp [removeKey, List.filter_cons, h]
  · simp [removeKey, List.filter_cons, h]

theorem jsLookup_removeKey (k k2 : String) (d : List (String × JVal)) :
    jsLookup k2 (removeKey k d) = if k2 = k then none else jsLookup k2 d := by
  induction d with
  | nil =>
    simp only [removeKey, List.filter_nil, jsLookup]
    split <;> rfl
  | cons p rest ih =>
    obtain ⟨kp, v⟩ := p
    rw [removeKey_cons]
    by_cases hpk : kp = k
    · rw [if_pos hpk, ih]
      by_cases h2 : k2 = k
      · rw [if_pos h2, if_pos h2]
      · rw [if_neg h2, if_neg h2]
        have hbeq : (kp == k2) = false := by
          rw [beq_eq_false_iff_ne]
          intro hh
          exact h2 (by rw [← hh, hpk])
        simp [jsLookup, hbeq]
    · rw [if_neg hpk]
      by_cases h3 : kp = k2
      · have h2 : ¬(k2 = k) := fun hh => hpk (h3.trans hh)
        have hbeq : (kp == k2) = true := beq_iff_eq.mpr h3
        rw [if_neg h2]
        simp [jsLookup, hbeq]
      · have hbeq : (kp == k2) = false := by
          rw [beq_eq_false_iff_ne]
          exact h3
        simp [jsLookup, hbeq, ih]

theorem escChar_no_angle (c : Char) : '<' ∉ escChar c ∧ '>' ∉ escChar c := by
  unfold escChar
  by_cases h1 : c = '&'
  · simp [h1]
  · by_cases h2 : c = '<'
    · simp [h1, h2]
    · by_cases h3 : c = '>'
      · simp [h1, h2, h3]
      · simp only [h1, h2, h3, if_false, List.mem_singleton]
        exact ⟨fun hh => h2 hh.symm, fun hh => h3 hh.symm⟩

theorem escList_no_angle : ∀ l : List Char, '<' ∉ escList l ∧ '>' ∉ escList l := by
  intro l
  induction l with
  | nil => simp [escList]
  | cons c cs ih =>
    simp only [escList, List.mem_append, not_or]
    exact ⟨⟨(escChar_no_angle c).1, ih.1⟩, (escChar_no_angle c).2, ih.2⟩

/-- C8: the digest builder renders only the six known fields, in the fixed
order `title, summary, date, emails, action_items, topics`: its output is
determined by the lookups of those six keys alone (unknown fields are
ignored), a present-but-falsy or empty-array field contributes exactly what
an absent one does, input text is HTML-escaped on insertion — the escaped
form never contains `<` or `>`, and a non-empty summary reaches the output
only through its escaped form — and on a fully-populated object (listed here
with its keys deliberately scrambled) the output is exactly the six sections
in the fixed order. -/
theorem digest_builder_correct :
    (∀ (fmtDate : String → String) (d1 d2 : List (String × JVal)),
        (∀ k ∈ fieldOrder, jsLookup k d1 = jsLookup k d2) →
        jsonToSummaryHTML fmtDate d1 = jsonToSummaryHTML fmtDate d2)
    ∧ (∀ (fmtDate : String → String) (d : List (String × JVal)) (k : String)
        (v : JVal),
        jsLookup k d = some v → jvalSkip v = true →
        jsonToSummaryHTML fmtDate d = jsonToSummaryHTML fmtDate (removeKey k d))
    ∧ (∀ s : String, '<' ∉ (escapeHtml s).data ∧ '>' ∉ (escapeHtml s).data)
    ∧ (∀ (fmtDate : String → String) (d : List (String × JVal)) (s : String),
        jsLookup "summary" d = some (.str s) → s ≠ "" →
        ∃ pre post, jsonToSummaryHTML fmtDate d = pre ++ escapeHtml s ++ post)
    ∧ (∀ (fmtDate : String → String) (t s dt : String) (em ai tp : List String),
        t ≠ "" → s ≠ "" → dt ≠ "" → em ≠ [] → ai ≠ [] → tp ≠ [] →
        jsonToSummaryHTML fmtDate
            [("topics", .arr tp), ("emails", .arr em), ("date", .str dt),
             ("action_items", .arr ai), ("summary", .str s), ("title", .str t)]
          = summaryContainerOpen
            ++ titleHtml (escapeHtml t)
            ++ sectionHtml (fieldLabel "summary") (paragraphHtml (escapeHtml s))
            ++ sectionHtml (fieldLabel "date") ("<em>" ++ fmtDate dt ++ "</em>")
            ++ sectionHtml (fieldLabel "emails") (listHtml em)
            ++ sectionHtml (fieldLabel "action_items") (listHtml ai)
            ++ sectionHtml (fieldLabel "topics") (listHtml tp)
            ++ "</div>") := by
  refine ⟨?_, ?_, ?_, ?_, ?_⟩
  · intro fmt d1 d2 h
    unfold jsonToSummaryHTML
    rw [List.map_congr_left (fun k hk => fieldHtml_congr fmt k (h k hk))]
  · intro fmt d k v hlook hskip
    unfold jsonToSummaryHTML
    have hmap : fieldOrder.map (fieldHtml fmt d)
        = fieldOrder.map (fieldHtml fmt (removeKey k d)) := by
      apply List.map_congr_left
      intro k2 _
      by_cases h2 : k2 = k
      · subst h2
        simp [fieldHtml, hlook, jsLookup_removeKey, hskip]
      · apply fieldHtml_congr
        rw [jsLookup_removeKey, if_neg h2]
    rw [hmap]
  · intro s
    exact escList_no_angle s.data
  · intro fmt d s hlook hs
    have hsum : fieldHtml fmt d "summary"
        = sectionHtml (fieldLabel "summary") (paragraphHtml (escapeHtml s)) := by
      simp [fieldHtml, hlook, jvalSkip, hs]
    refine ⟨summaryContainerOpen ++ fieldHtml fmt d "title" ++ sectionOpen
        ++ fieldLabel "summary"
        ++ "</h3>\n                <p style=\"margin: 8px 0; color: #4a5568; line-height: 1.6;\">",
      "</p>" ++ "\n            </div>\n        " ++ fieldHtml fmt d "date"
        ++ fieldHtml fmt d "emails" ++ fieldHtml fmt d "action_items"
        ++ fieldHtml fmt d "topics" ++ "</div>", ?_⟩
    unfold jsonToSummaryHTML fieldOrder
    simp only [List.map_cons, List.map_nil, List.foldl_cons, List.foldl_nil]
    rw [hsum]
    simp only [sectionHtml, paragraphHtml, String.append_assoc]
    have hlit : ∀ x : String, "</h3>\n                "
        ++ ("<p style=\"margin: 8px 0; color: #4a5568; line-height: 1.6;\">" ++ x)
        = "</h3>\n                <p style=\"margin: 8px 0; color: #4a5568; line-height: 1.6;\">"
          ++ x := by
      intro x
      rw [← String.append_assoc]
      rfl
    rw [hlit]
  · intro fmt t s dt em ai tp ht hs hdt hem hai htp
    unfold jsonToSummaryHTML fieldOrder
    simp only [List.map_cons, List.map_nil, List.foldl_cons, List.foldl_nil]
    simp [fieldHtml, jsLookup, jvalSkip, jvalToString, ht, hs, hdt, hem, hai,
      htp, String.append_assoc]

/-- Witness for C8: a summary containing `<script>` markup reaches the output
only through its escaped form. -/
theorem digest_builder_correct_witness :
    ∃ pre post,
      jsonToSummaryHTML (fun s => s)
          [("summary", .str "<script>alert(1)</script>")]
        = pre ++ escapeHtml "<script>alert(1)</script>" ++ post :=
  digest_builder_correct.2.2.2.1 (fun s => s) _ _ rfl (by decide)

end Hackathon
